import Mathlib

/-
Verification of the Vibe Guardian core (src/vbg.py) against its
natural-language specification.  The Python source is shallowly embedded:
pure functions become Lean functions, the stateful SessionManager and
CodeApplicator become explicit state-passing functions, file-system and
subprocess effects are made explicit parameters (an abstract file-system map,
an outcome value for a spawned process, an oracle for successive provider
calls), and Python ints are modeled as Int/Nat.
-/

namespace VBG

/- Constants from src/vbg.py lines 46-56. -/

def DEFAULT_COMMAND_TIMEOUT : Nat := 300

def MAX_CONTEXT_HISTORY : Nat := 10

def MAX_CONTEXT_TOKENS : Nat := 4000

def SESSION_EXPIRY_HOURS : Nat := 24

def BACKUP_DIR : String := ".vbg_backups"

/- Character classes used by estimate_tokens (src/vbg.py lines 927-956).
The Python regexes run over a `str`, so the classes are over Unicode
codepoints. -/

/-- Class of the regex [a-zA-Z] (ASCII alphabetic). -/
def isAsciiAlpha (c : Char) : Bool :=
  (65 ≤ c.toNat && c.toNat ≤ 90) || (97 ≤ c.toNat && c.toNat ≤ 122)

/-- Class of the regex [　-鿿가-힯] (CJK punctuation/ideographs
and Hangul syllables). -/
def isCjkChar (c : Char) : Bool :=
  (0x3000 ≤ c.toNat && c.toNat ≤ 0x9fff) || (0xac00 ≤ c.toNat && c.toNat ≤ 0xd7af)

/-- The explicit digit/punctuation/symbol set of the third regex in
estimate_tokens.  The literal braces of the Python set are the characters
with codes 0x7b and 0x7d. -/
def specialCharList : List Char :=
  ['0', '1', '2', '3', '4', '5', '6', '7', '8', '9',
   '.', ',', '!', '?', ':', ';', '\'', '\"', '(', ')', '[', ']', '\x7b', '\x7d',
   '+', '-', '*', '/', '=', '<', '>', '@', '#', '$', '%', '^', '&', '_', '|', '\\']

def isSpecialChar (c : Char) : Bool := specialCharList.contains c

/-- Python's regex class \s on str: ASCII whitespace, the C1 separators, and
the Unicode space characters. -/
def isPySpace (c : Char) : Bool :=
  c == ' ' || c == '\t' || c == '\n' || c == '\r' ||
  c.toNat == 0x0b || c.toNat == 0x0c ||
  (0x1c ≤ c.toNat && c.toNat ≤ 0x1f) || c.toNat == 0x85 || c.toNat == 0xa0 ||
  c.toNat == 0x1680 || (0x2000 ≤ c.toNat && c.toNat ≤ 0x200a) ||
  c.toNat == 0x2028 || c.toNat == 0x2029 || c.toNat == 0x202f ||
  c.toNat == 0x205f || c.toNat == 0x3000

/-- Number of maximal runs of characters satisfying p, i.e. the length of
re.findall of the class followed by +. -/
def countRunsAux (p : Char → Bool) : Bool → List Char → Nat
  | _, [] => 0
  | inRun, c :: rest =>
    if p c then (if inRun then 0 else 1) + countRunsAux p true rest
    else countRunsAux p false rest

def countRuns (p : Char → Bool) (l : List Char) : Nat := countRunsAux p false l

/-- Embedding of estimate_tokens (src/vbg.py lines 927-956).
words = # maximal [a-zA-Z]+ runs, weighted 1.3 per run;
non-English CJK characters weighted 0.5 per character;
special characters weighted 0.5 each; whitespace runs weighted 0.1 each;
the weighted sum is truncated by int() and clamped with max(1, _).
The Python float weights 1.3 / 0.5 / 0.5 / 0.1 are modeled exactly as
rationals, so the truncated sum is a Nat division of tenths by 10; the
properties proved below do not depend on float rounding at the weights. -/
def estimate_tokens (text : String) : Int :=
  if text = "" then 0
  else
    let l := text.toList
    let english_words := countRuns isAsciiAlpha l
    let non_english_chars := (l.filter isCjkChar).length
    let special_chars := (l.filter isSpecialChar).length
    let whitespace := countRuns isPySpace l
    let total : Nat :=
      (13 * english_words + 5 * non_english_chars + 5 * special_chars + whitespace) / 10
    max 1 (total : Int)

/- Session store (src/vbg.py lines 106-301). -/

/-- Embedding of the ContextEntry dataclass (src/vbg.py lines 106-113).
The token field is an Int because persisted session files may carry
arbitrary integers there. -/
structure ContextEntry where
  role : String
  content : String
  timestamp : String
  command : String
  tokens : Int
  deriving DecidableEq

def sumTokens (l : List ContextEntry) : Int := (l.map (fun e => e.tokens)).sum

/-- First while loop of add_context (src/vbg.py lines 205-207):
pop the head while the history is longer than MAX_CONTEXT_HISTORY. -/
def evictOverHistory : List ContextEntry → List ContextEntry
  | [] => []
  | e :: rest =>
    if (e :: rest).length > MAX_CONTEXT_HISTORY then evictOverHistory rest
    else e :: rest

/-- Second while loop of add_context (src/vbg.py lines 209-213): pop the head
while the summed token estimates exceed MAX_CONTEXT_TOKENS and more than one
entry remains.  The Python code keeps a running total decremented by each
popped entry's tokens; over exact integers that total always equals the sum
of the remaining list, which is the form used here. -/
def evictOverTokens : List ContextEntry → List ContextEntry
  | [] => []
  | e :: rest =>
    if sumTokens (e :: rest) > (MAX_CONTEXT_TOKENS : Int) ∧ (e :: rest).length > 1 then
      evictOverTokens rest
    else e :: rest

/-- The subset of the session_metadata dict read or written by the modeled
operations: created_at / updated_at (ISO timestamps, modeled as seconds,
absent key = none) and the total_commands counter. -/
structure Metadata where
  created_at : Option Int
  updated_at : Option Int
  total_commands : Option Int
  deriving DecidableEq

/-- The mutable state of a SessionManager (src/vbg.py lines 119-125):
current_session_id, session_metadata, project_summary, context_history. -/
structure SessionState where
  current_session_id : Option String
  session_metadata : Metadata
  project_summary : String
  context_history : List ContextEntry
  deriving DecidableEq

/-- Embedding of SessionManager.add_context (src/vbg.py lines 193-217).
nowIso is the entry timestamp string and now the clock in seconds; the
trailing _save_session call only performs I/O and is not modeled. -/
def add_context (st : SessionState) (role content command : String)
    (nowIso : String) (now : Int) : SessionState :=
  let tokens := estimate_tokens content
  let entry : ContextEntry :=
    { role := role, content := content, timestamp := nowIso,
      command := command, tokens := tokens }
  let h1 := st.context_history ++ [entry]
  let h2 := evictOverHistory h1
  let h3 := evictOverTokens h2
  { st with
    context_history := h3,
    session_metadata :=
      { st.session_metadata with
        updated_at := some now,
        total_commands := some (st.session_metadata.total_commands.getD 0 + 1) } }

/-- The possible shapes of a persisted session file, as seen by load_session:
missing file; json.load raises; json parses but building the ContextEntry
list raises (after metadata and project_summary were already assigned);
or a fully deserializable session. -/
inductive SessionFile where
  | missing
  | unparsable
  | badEntries (metadata : Metadata) (project_summary : String)
  | parsed (metadata : Metadata) (project_summary : String)
      (context_history : List ContextEntry)

/-- Embedding of SessionManager.load_session (src/vbg.py lines 144-170).
The source assigns current_session_id, session_metadata, project_summary and
context_history in that order inside the try block and only afterwards checks
expiry; a raise while building the entry list is caught after the first three
assignments already happened.  created_at defaults to the current time when
the key is absent. -/
def load_session (st : SessionState) (session_id : String)
    (file : SessionFile) (now : Int) : Bool × SessionState :=
  match file with
  | .missing => (false, st)
  | .unparsable => (false, st)
  | .badEntries md ps =>
    (false, { st with current_session_id := some session_id,
                      session_metadata := md, project_summary := ps })
  | .parsed md ps hist =>
    let st' : SessionState :=
      { current_session_id := some session_id, session_metadata := md,
        project_summary := ps, context_history := hist }
    let created_at := md.created_at.getD now
    if now - created_at > (SESSION_EXPIRY_HOURS : Int) * 3600 then (false, st')
    else (true, st')

/- AI engine (src/vbg.py lines 963-1213). -/

/-- The possible outcomes of the subprocess.run call inside
AIEngine._run_command: a completed process with its exit code and captured
streams, a raised subprocess.TimeoutExpired, or any other raised exception
with its message. -/
inductive SubprocessOutcome where
  | completed (returncode : Int) (stdout : String) (stderr : String)
  | timedOut
  | raised (message : String)

/-- Embedding of AIEngine._run_command (src/vbg.py lines 977-991): the
try/except around subprocess.run maps each outcome to a (success, output)
pair and lets nothing escape as an exception (the Lean function is total). -/
def run_command (outcome : SubprocessOutcome) : Bool × String :=
  match outcome with
  | .completed returncode stdout stderr => (returncode == 0, stdout ++ stderr)
  | .timedOut => (false, "Command timed out")
  | .raised message => (false, message)

/-- Embedding of AIEngine.fallback_mode (src/vbg.py lines 1094-1109).
max_attempts is the configured max_self_heal_attempts value; the successive
results of the call_gemini calls made by the recursion are supplied by the
oracle gemini, indexed by how many calls were already made; calls threads
that counter so the theorems can count provider invocations. -/
def fallback_mode (max_attempts : Nat) (gemini : Nat → Bool × String)
    (calls : Nat) (attempt : Nat) : (Bool × String) × Nat :=
  if attempt > max_attempts then
    ((false, "Maximum self-heal attempts exceeded"), calls)
  else
    let r := gemini calls
    if r.1 = false ∧ attempt < max_attempts then
      fallback_mode max_attempts gemini (calls + 1) (attempt + 1)
    else (r, calls + 1)
termination_by max_attempts + 1 - attempt
decreasing_by omega

/- Result synthesizer (src/vbg.py lines 1180-1213).  The Colors escape
sequences and the fixed message fragments are reproduced verbatim. -/

def colorRESET : String := "\x1b[0m"

def colorBOLD : String := "\x1b[1m"

def colorCYAN : String := "\x1b[96m"

def colorYELLOW : String := "\x1b[93m"

/-- Python "s" * n. -/
def srepeat (s : String) (n : Nat) : String := String.join (List.replicate n s)

/-- The icon lookup dict in synthesize_results (src/vbg.py line 1197). -/
def aiIcon (name : String) : String :=
  if name == "claude" then "🤖"
  else if name == "gemini" then "💎"
  else if name == "antigravity" then "🚀"
  else "🔹"

/-- The per-provider section appended for each successful result
(src/vbg.py lines 1198-1202). -/
def sectionFor (ai_name output : String) : String :=
  "\n" ++ colorCYAN ++ aiIcon ai_name ++ " " ++ ai_name.toUpper ++ " 의견:" ++
  colorRESET ++ "\n" ++ srepeat "─" 50 ++ "\n" ++ output ++ "\n"

/-- The synthesis header (src/vbg.py lines 1191-1195). -/
def synthesisHeader : String :=
  "\n" ++ colorBOLD ++ srepeat "═" 70 ++ "\n" ++
  "                    종합 분석 결과 (Synthesized Results)\n" ++
  srepeat "═" 70 ++ colorRESET ++ "\n"

/-- The static reconciliation hint (src/vbg.py lines 1206-1211). -/
def reconcileTip : String :=
  "\n" ++ colorYELLOW ++ srepeat "─" 70 ++ "\n" ++
  "💡 TIP: 위 결과들의 공통 제안사항을 우선 적용하고,\n" ++
  "       상충되는 부분은 프로젝트 상황에 맞게 선택하세요.\n" ++
  srepeat "─" 70 ++ colorRESET ++ "\n"

/-- Embedding of AIEngine.synthesize_results (src/vbg.py lines 1180-1213).
The Python results dict is insertion-ordered, so it is modeled as an
association list; the dict comprehension keeping successful entries becomes
a filter preserving that order, and the for loop over its items becomes a
foldl appending one section per successful provider. -/
def synthesize_results (results : List (String × Bool × String))
    (task_description : String) : String :=
  let successful := results.filter (fun r => r.2.1)
  if successful.isEmpty then "모든 AI 호출이 실패했습니다."
  else if successful.length == 1 then
    match successful with
    | r :: _ => r.2.2
    | [] => ""
  else
    let body := successful.foldl
      (fun acc r => acc ++ sectionFor r.1 r.2.2) synthesisHeader
    if successful.length ≥ 2 then body ++ reconcileTip else body

/- Code applicator (src/vbg.py lines 303-553). -/

/-- Embedding of the CodeChange dataclass (src/vbg.py lines 303-312). -/
structure CodeChange where
  file_path : String
  description : String
  original_code : String
  new_code : String
  line_start : Int := 0
  line_end : Int := 0
  change_type : String := "modify"
  deriving DecidableEq

/-- The file system, as a map from path strings to file contents; none means
the path does not exist. -/
abbrev FS := String → Option String

/-- Which of the fallible I/O operations performed inside the try/except
blocks of create_backup and apply_change succeed, and the message str(e)
carries when one raises.  copy_ok is shutil.copy2 in create_backup (whose
failure is caught there, returning None); write_ok is the open/write of the
target, unlink_ok the Path.unlink, both caught by apply_change's outer
try/except. -/
structure IOEnv where
  copy_ok : Bool
  write_ok : Bool
  unlink_ok : Bool
  exc_msg : String

/-- pathlib Path.name: the last path component, i.e. the characters after
the last slash. -/
def fileNameOf (p : String) : String :=
  ⟨((p.toList.reverse.takeWhile (fun c => !(c == '/'))).reverse)⟩

/-- Index of the last occurrence of a dot. -/
def lastDotIdx : List Char → Option Nat
  | [] => none
  | c :: rest =>
    match lastDotIdx rest with
    | some i => some (i + 1)
    | none => if c == '.' then some 0 else none

/-- pathlib Path.stem and Path.suffix of a file name: split at the last dot
when it is neither the first nor the last character, else the suffix is
empty. -/
def stemAndSuffix (name : String) : String × String :=
  let l := name.toList
  match lastDotIdx l with
  | some i =>
    if 0 < i ∧ i < l.length - 1 then (⟨l.take i⟩, ⟨l.drop i⟩)
    else (name, "")
  | none => (name, "")

/-- The backup destination computed by create_backup (src/vbg.py lines
380-382): backup_dir / (stem ++ underscore ++ timestamp ++ suffix), with ts
the second-resolution strftime timestamp. -/
def backupPathOf (ts : String) (file_path : String) : String :=
  let nm := fileNameOf file_path
  BACKUP_DIR ++ "/" ++ (stemAndSuffix nm).1 ++ "_" ++ ts ++ (stemAndSuffix nm).2

/-- Embedding of CodeApplicator.create_backup (src/vbg.py lines 374-389):
returns None for a missing source; otherwise copies the source bytes to the
deterministically named backup path, or returns None (after a warning) when
the copy raises. -/
def create_backup (fs : FS) (env : IOEnv) (ts : String) (file_path : String) :
    Option String × FS :=
  if (fs file_path).isNone then (none, fs)
  else
    let backup_path := backupPathOf ts file_path
    if env.copy_ok then
      (some backup_path, fun p => if p = backup_path then fs file_path else fs p)
    else (none, fs)

/-- Embedding of CodeApplicator.apply_change (src/vbg.py lines 422-458).
The three branches follow the source's comparisons of change_type against
"delete" and "create", any other value falling to the modify branch; the
outer try/except turns a raising write/unlink into (False, str(e)).  The
mkdir(parents=True, exist_ok=True) of the create branch is a no-op on the
flat path-to-contents map. -/
def apply_change (fs : FS) (env : IOEnv) (ts : String) (change : CodeChange) :
    (Bool × String) × FS :=
  if change.change_type == "delete" then
    if (fs change.file_path).isSome then
      let r := create_backup fs env ts change.file_path
      if env.unlink_ok then
        ((true, "파일 삭제됨"), fun p => if p = change.file_path then none else r.2 p)
      else ((false, env.exc_msg), r.2)
    else ((false, "파일이 존재하지 않음"), fs)
  else if change.change_type == "create" then
    if (fs change.file_path).isSome then ((false, "파일이 이미 존재함"), fs)
    else if env.write_ok then
      ((true, "파일 생성됨"),
        fun p => if p = change.file_path then some change.new_code else fs p)
    else ((false, env.exc_msg), fs)
  else
    if (fs change.file_path).isNone then ((false, "파일이 존재하지 않음"), fs)
    else
      let r := create_backup fs env ts change.file_path
      if env.write_ok then
        ((true, "수정 완료"),
          fun p => if p = change.file_path then some change.new_code else r.2 p)
      else ((false, env.exc_msg), r.2)

/- Change extractor (src/vbg.py lines 324-372).  The two regular expressions
are embedded as explicit scanners with the semantics of re.findall /
re.search on these concrete patterns: leftmost non-overlapping matches,
greedy character classes, lazy dot-all bodies ending at the next closing
fence. -/

/-- Python str.strip() with no argument: remove leading and trailing
whitespace. -/
def pyStrip (s : String) : String :=
  ⟨(((s.toList.dropWhile isPySpace).reverse.dropWhile isPySpace).reverse)⟩

/-- The regex class \w.  Python's \w is Unicode-aware; it is modeled as
ASCII alphanumerics, the underscore, and the CJK/Hangul ranges (the only
non-ASCII text the program handles). -/
def isWordChar (c : Char) : Bool := c.isAlphanum || c == '_' || isCjkChar c

/-- A character the fence-hint class [^\n\x60]+ accepts: anything except a
newline or a backtick. -/
def isHintChar (c : Char) : Bool := !(c == '\n' || c == '\x60')

/-- The optional (?:(\w+):) language prefix of the pattern-1 fence line:
the greedy word run matches as the group exactly when it is nonempty and
immediately followed by a colon (a colon can never occur inside the run, so
no shorter run can be completed by backtracking). -/
def matchLang (l : List Char) : String × List Char :=
  let run := l.takeWhile isWordChar
  let rest := l.dropWhile isWordChar
  if run.isEmpty then ("", l)
  else
    match rest with
    | ':' :: rest2 => (⟨run⟩, rest2)
    | _ => ("", l)

/-- Split at the first occurrence of a closing fence (three backticks) as
the lazy (.*?) followed by the fence literal does: the text before the
fence, and the text after it. -/
def splitAtFence : List Char → Option (List Char × List Char)
  | '\x60' :: '\x60' :: '\x60' :: rest => some ([], rest)
  | c :: rest =>
    match splitAtFence rest with
    | some (before, after) => some (c :: before, after)
    | none => none
  | [] => none

/-- One attempted match of pattern 1 at the current position
(src/vbg.py line 330).  The opening fence, the optional language
prefix, the greedy optional hint run stopped at the first newline or
backtick (which must be a newline, or the attempt fails — a shorter hint
run cannot help, since the run's characters are not newlines), then the
lazy body up to the next closing fence. -/
def tryMatch1 : List Char → Option ((String × String × String) × List Char)
  | '\x60' :: '\x60' :: '\x60' :: rest =>
    let lr := matchLang rest
    let hint := lr.2.takeWhile isHintChar
    let r2 := lr.2.dropWhile isHintChar
    match r2 with
    | '\n' :: r3 =>
      match splitAtFence r3 with
      | some (code, rest4) => some ((lr.1, ⟨hint⟩, ⟨code⟩), rest4)
      | none => none
    | _ => none
  | _ => none

/-- re.findall scanning for pattern 1: try a match at each position, resume
after the end of each match.  Each step consumes at least one character, so
the length of the text is sufficient fuel. -/
def scan1 : Nat → List Char → List (String × String × String)
  | 0, _ => []
  | _, [] => []
  | fuel + 1, c :: rest =>
    match tryMatch1 (c :: rest) with
    | some (m, remaining) => m :: scan1 fuel remaining
    | none => scan1 fuel rest

def findall_code_blocks (s : String) : List (String × String × String) :=
  scan1 s.toList.length s.toList

/-- The bare language names rejected as noise (src/vbg.py line 338). -/
def noiseLangs : List String := ["python", "javascript", "typescript", "java", "diff"]

/-- The CodeChange built for an accepted proposal (src/vbg.py lines 344-350
and 362-368): description is the fixed prefix plus path, original_code is
empty, the new content is stripped, and the kind is always modify. -/
def mkChange (file_path code : String) : CodeChange :=
  { file_path := file_path,
    description := "코드 변경: " ++ file_path,
    original_code := "",
    new_code := pyStrip code,
    line_start := 0, line_end := 0,
    change_type := "modify" }

/-- The body of the pattern-1 for loop (src/vbg.py lines 333-351): skip an
absent hint, strip it, skip empty or bare-language hints, strip leading
slashes, and accept only when the path exists on disk. -/
def change_of_match1 (fsExists : String → Bool)
    (m : String × String × String) : Option CodeChange :=
  if m.2.1 == "" then none
  else
    let fp0 := pyStrip m.2.1
    if fp0 == "" || noiseLangs.contains fp0 then none
    else
      let fp : String := ⟨fp0.toList.dropWhile (fun c => c == '/')⟩
      if fsExists fp then some (mkChange fp m.2.2) else none

/-- A colon or whitespace, the class [:\s]* after the literal file tag of
pattern 2. -/
def isColonSpace (c : Char) : Bool := c == ':' || isPySpace c

/-- Split at the first occurrence of the given character. -/
def splitAtChar (target : Char) : List Char → Option (List Char × List Char)
  | [] => none
  | c :: rest =>
    if c == target then some ([], rest)
    else
      match splitAtChar target rest with
      | some (a, b) => some (c :: a, b)
      | none => none

/-- Split at the next occurrence of the literal file tag, keeping the tag in
the right part (pattern 2's lookahead consumes nothing). -/
def splitAtFileTag : List Char → Option (List Char × List Char)
  | '[' :: '파' :: '일' :: rest => some ([], '[' :: '파' :: '일' :: rest)
  | c :: rest =>
    match splitAtFileTag rest with
    | some (a, b) => some (c :: a, b)
    | none => none
  | [] => none

/-- One attempted match of pattern 2 (src/vbg.py line 354) at a position
starting with the file tag: find the closing bracket, which must have at
least one character before it; the greedy [:\s]* run is capped so the
path group keeps at least one character; then skip whitespace and take the
lazy body up to the next file tag or the end of the text. -/
def tryMatch2 : List Char → Option ((String × String) × List Char)
  | '[' :: '파' :: '일' :: rest =>
    match splitAtChar ']' rest with
    | none => none
    | some (before, afterBracket) =>
      if before.isEmpty then none
      else
        let k0 := (rest.takeWhile isColonSpace).length
        let k := min k0 (before.length - 1)
        let path := before.drop k
        let body := afterBracket.dropWhile isPySpace
        match splitAtFileTag body with
        | some (content, fromTag) => some ((⟨path⟩, ⟨content⟩), fromTag)
        | none => some ((⟨path⟩, ⟨body⟩), [])
  | _ => none

/-- re.findall scanning for pattern 2. -/
def scan2 : Nat → List Char → List (String × String)
  | 0, _ => []
  | _, [] => []
  | fuel + 1, c :: rest =>
    match tryMatch2 (c :: rest) with
    | some (m, remaining) => m :: scan2 fuel remaining
    | none => scan2 fuel rest

def find_file_sections (s : String) : List (String × String) :=
  scan2 s.toList.length s.toList

/-- One attempted match of the inner fenced-block search of pattern 2
(src/vbg.py line 360): an opening fence, a greedy \w* run, an optional
newline, then the lazy body up to the next closing fence. -/
def tryMatchInner : List Char → Option (List Char)
  | '\x60' :: '\x60' :: '\x60' :: rest =>
    let r1 := rest.dropWhile isWordChar
    let r2 := match r1 with
      | '\n' :: t => t
      | _ => r1
    match splitAtFence r2 with
    | some (code, _) => some code
    | none => none
  | _ => none

/-- re.search for the inner fenced-block pattern: the first position where a
match succeeds. -/
def searchInner : Nat → List Char → Option String
  | 0, _ => none
  | _, [] => none
  | fuel + 1, c :: rest =>
    match tryMatchInner (c :: rest) with
    | some code => some ⟨code⟩
    | none => searchInner fuel rest

def search_code_in_content (content : String) : Option String :=
  searchInner content.toList.length content.toList

/-- The candidate CodeChange a pattern-2 section yields (src/vbg.py lines
357-368): strip the path, search the section body for a fenced block, and
require the path to exist on disk. -/
def candidate2 (fsExists : String → Bool)
    (file_path_raw content : String) : Option CodeChange :=
  let fp := pyStrip file_path_raw
  match search_code_in_content content with
  | some code => if fsExists fp then some (mkChange fp code) else none
  | none => none

/-- The body of the pattern-2 for loop (src/vbg.py lines 357-370): append
the candidate unless an already-collected change with the same file path is
field-equal to it. -/
def process2_step (fsExists : String → Bool) (changes : List CodeChange)
    (sec : String × String) : List CodeChange :=
  match candidate2 fsExists sec.1 sec.2 with
  | some change =>
    if change ∈ changes.filter (fun c => c.file_path == change.file_path) then changes
    else changes ++ [change]
  | none => changes

/-- Embedding of CodeApplicator.parse_changes_from_response (src/vbg.py
lines 324-372): pattern-1 matches are processed first, appending every
accepted proposal; then the pattern-2 sections are folded over the collected
list.  Path existence checks are supplied by the abstract fsExists. -/
def parse_changes_from_response (fsExists : String → Bool)
    (response : String) : List CodeChange :=
  let changes1 := (findall_code_blocks response).filterMap (change_of_match1 fsExists)
  (find_file_sections response).foldl (process2_step fsExists) changes1

/- Theorems. -/

/-- Helper: the history-length eviction loop leaves at most
MAX_CONTEXT_HISTORY entries. -/
theorem evictOverHistory_length_le (l : List ContextEntry) :
    (evictOverHistory l).length ≤ MAX_CONTEXT_HISTORY := by
  induction l with
  | nil => simp [evictOverHistory, MAX_CONTEXT_HISTORY]
  | cons e rest ih =>
    rw [evictOverHistory]
    by_cases h : (e :: rest).length > MAX_CONTEXT_HISTORY
    · rw [if_pos h]
      exact ih
    · rw [if_neg h]
      omega

/-- Helper: the history-length eviction loop never empties a nonempty
history. -/
theorem evictOverHistory_ne_nil (l : List ContextEntry) (h : l ≠ []) :
    evictOverHistory l ≠ [] := by
  induction l with
  | nil => exact absurd rfl h
  | cons e rest ih =>
    rw [evictOverHistory]
    by_cases hl : (e :: rest).length > MAX_CONTEXT_HISTORY
    · rw [if_pos hl]
      have hrest : rest ≠ [] := by
        intro hr
        rw [hr] at hl
        simp [MAX_CONTEXT_HISTORY] at hl
      exact ih hrest
    · rw [if_neg hl]
      simp

/-- Helper: the token eviction loop does not lengthen the history. -/
theorem evictOverTokens_length_le (l : List ContextEntry) :
    (evictOverTokens l).length ≤ l.length := by
  induction l with
  | nil => simp [evictOverTokens]
  | cons e rest ih =>
    rw [evictOverTokens]
    by_cases h : sumTokens (e :: rest) > (MAX_CONTEXT_TOKENS : Int) ∧
        (e :: rest).length > 1
    · rw [if_pos h]
      exact le_trans ih (by simp)
    · rw [if_neg h]

/-- Helper: on a nonempty history the token eviction loop stops either
within the token budget or with exactly one entry left. -/
theorem evictOverTokens_budget (l : List ContextEntry) (h : l ≠ []) :
    evictOverTokens l ≠ [] ∧
      (sumTokens (evictOverTokens l) ≤ (MAX_CONTEXT_TOKENS : Int) ∨
        (evictOverTokens l).length = 1) := by
  induction l with
  | nil => exact absurd rfl h
  | cons e rest ih =>
    rw [evictOverTokens]
    by_cases hc : sumTokens (e :: rest) > (MAX_CONTEXT_TOKENS : Int) ∧
        (e :: rest).length > 1
    · rw [if_pos hc]
      have hrest : rest ≠ [] := by
        intro hr
        rw [hr] at hc
        simp at hc
      exact ih hrest
    · rw [if_neg hc]
      refine ⟨by simp, ?_⟩
      by_cases hs : sumTokens (e :: rest) ≤ (MAX_CONTEXT_TOKENS : Int)
      · exact Or.inl hs
      · right
        push_neg at hc
        have hlen := hc (by omega)
        simp only [List.length_cons] at hlen ⊢
        omega

/-- Claim C1: for every sequence of add_context calls on a SessionManager,
after each call the context history has at most MAX_CONTEXT_HISTORY (10)
entries and the sum of the entries' stored token estimates is at most
MAX_CONTEXT_TOKENS (4000), except when a single remaining entry alone
already exceeds the token budget, in which case that one entry is kept.
Proved for a single add_context call from an arbitrary prior state, which
gives the property after every call of every sequence. -/
theorem add_context_window_invariant (st : SessionState)
    (role content command nowIso : String) (now : Int) :
    (add_context st role content command nowIso now).context_history.length ≤
        MAX_CONTEXT_HISTORY ∧
      (sumTokens (add_context st role content command nowIso now).context_history ≤
          (MAX_CONTEXT_TOKENS : Int) ∨
        ((add_context st role content command nowIso now).context_history.length = 1 ∧
          (MAX_CONTEXT_TOKENS : Int) <
            sumTokens (add_context st role content command nowIso now).context_history)) := by
  have hne : st.context_history ++
      [({ role := role, content := content, timestamp := nowIso,
          command := command, tokens := estimate_tokens content } : ContextEntry)] ≠ [] := by
    simp
  have h2ne := evictOverHistory_ne_nil _ hne
  have h2len := evictOverHistory_length_le (st.context_history ++
      [({ role := role, content := content, timestamp := nowIso,
          command := command, tokens := estimate_tokens content } : ContextEntry)])
  have h3 := evictOverTokens_budget _ h2ne
  have h3len := evictOverTokens_length_le (evictOverHistory (st.context_history ++
      [({ role := role, content := content, timestamp := nowIso,
          command := command, tokens := estimate_tokens content } : ContextEntry)]))
  constructor
  · show (evictOverTokens (evictOverHistory _)).length ≤ MAX_CONTEXT_HISTORY
    exact le_trans h3len h2len
  · rcases h3.2 with hs | hone
    · exact Or.inl hs
    · by_cases hb : sumTokens (add_context st role content command nowIso now).context_history ≤
          (MAX_CONTEXT_TOKENS : Int)
      · exact Or.inl hb
      · exact Or.inr ⟨hone, by omega⟩

/-- Claim C9: estimate_tokens returns 0 for the empty string, an integer at
least 1 for every non-empty text, and is deterministic (a pure function of
its argument). -/
theorem estimate_tokens_spec :
    estimate_tokens "" = 0 ∧
      (∀ t : String, t ≠ "" → 1 ≤ estimate_tokens t) ∧
      (∀ t : String, estimate_tokens t = estimate_tokens t) := by
  refine ⟨rfl, ?_, fun t => rfl⟩
  intro t ht
  rw [estimate_tokens, if_neg ht]
  exact le_max_left 1 _

/-- Witness for C9 at concrete inputs. -/
theorem estimate_tokens_spec_witness :
    estimate_tokens "" = 0 ∧
      (("hello" : String) ≠ "" ∧ 1 ≤ estimate_tokens "hello") :=
  ⟨estimate_tokens_spec.1, by decide, estimate_tokens_spec.2.1 "hello" (by decide)⟩

/-- A SessionManager state as left by __init__ (src/vbg.py lines 119-125):
no current session, empty metadata, empty summary, empty history. -/
def freshSessionState : SessionState :=
  { current_session_id := none,
    session_metadata := { created_at := none, updated_at := none, total_commands := none },
    project_summary := "",
    context_history := [] }

/-- Counterexample to claim C3: loading an expired session reports failure,
yet the manager's state was already overwritten.  A fresh manager loads a
fully parseable session file whose created_at lies more than
SESSION_EXPIRY_HOURS in the past (created_at = 0, now = 100000 seconds, and
100000 > 24 * 3600): load_session returns false, but current_session_id,
session_metadata, project_summary and context_history now hold the expired
session's data, so the resulting state differs from the state before the
call. -/
theorem load_session_expired_mutates_counterexample :
    (load_session freshSessionState "20240101_120000"
        (.parsed { created_at := some 0, updated_at := some 0,
                   total_commands := some 3 } "old summary" []) 100000).1 = false ∧
      (load_session freshSessionState "20240101_120000"
        (.parsed { created_at := some 0, updated_at := some 0,
                   total_commands := some 3 } "old summary" []) 100000).2 ≠
        freshSessionState ∧
      (load_session freshSessionState "20240101_120000"
        (.parsed { created_at := some 0, updated_at := some 0,
                   total_commands := some 3 } "old summary" []) 100000).2.current_session_id =
        some "20240101_120000" := by
  refine ⟨rfl, ?_, rfl⟩
  decide

/-- Amended claim C3: when the session file is missing, or json.load itself
fails, load_session reports failure with the state unchanged; but when the
entry list fails to deserialize after parsing, failure is reported with the
session id, metadata and summary already overwritten (only the context
history is untouched); and when the session is expired, failure is reported
with the entire state already replaced by the loaded session's data. -/
theorem load_session_failure_spec (st : SessionState) (session_id : String)
    (now : Int) :
    load_session st session_id .missing now = (false, st) ∧
      load_session st session_id .unparsable now = (false, st) ∧
      (∀ md ps,
        (load_session st session_id (.badEntries md ps) now).1 = false ∧
        (load_session st session_id (.badEntries md ps) now).2.context_history =
          st.context_history ∧
        (load_session st session_id (.badEntries md ps) now).2.current_session_id =
          some session_id ∧
        (load_session st session_id (.badEntries md ps) now).2.session_metadata = md) ∧
      (∀ md ps hist, now - md.created_at.getD now > (SESSION_EXPIRY_HOURS : Int) * 3600 →
        (load_session st session_id (.parsed md ps hist) now).1 = false ∧
        (load_session st session_id (.parsed md ps hist) now).2 =
          { current_session_id := some session_id, session_metadata := md,
            project_summary := ps, context_history := hist }) := by
  refine ⟨rfl, rfl, fun md ps => ⟨rfl, rfl, rfl, rfl⟩, fun md ps hist hexp => ?_⟩
  constructor
  · simp only [load_session, if_pos hexp]
  · simp only [load_session, if_pos hexp]

/-- Witness for the amended C3 at concrete inputs. -/
theorem load_session_failure_spec_witness :
    load_session freshSessionState "s" .missing 0 = (false, freshSessionState) ∧
      (load_session freshSessionState "s"
        (.parsed { created_at := some 0, updated_at := none, total_commands := none }
          "ps" []) 100000).1 = false ∧
      (load_session freshSessionState "s"
        (.parsed { created_at := some 0, updated_at := none, total_commands := none }
          "ps" []) 100000).2 =
        { current_session_id := some "s",
          session_metadata := { created_at := some 0, updated_at := none,
                                total_commands := none },
          project_summary := "ps", context_history := [] } := by
  have h := load_session_failure_spec freshSessionState "s" 100000
  have h4 := h.2.2.2 { created_at := some 0, updated_at := none, total_commands := none }
    "ps" [] (by decide)
  exact ⟨(load_session_failure_spec freshSessionState "s" 0).1, h4.1, h4.2⟩

/-- Claim C6: the provider invocation primitive never lets an exception
escape (the embedding is a total function on every subprocess outcome): a
timeout becomes (false, "Command timed out"), a raised exception becomes
(false, its message), and a completed process becomes
(exit_code == 0, stdout ++ stderr). -/
theorem run_command_isolates_failures :
    run_command .timedOut = (false, "Command timed out") ∧
      (∀ message, run_command (.raised message) = (false, message)) ∧
      (∀ (returncode : Int) (stdout stderr : String),
        run_command (.completed returncode stdout stderr) =
          (returncode == 0, stdout ++ stderr)) :=
  ⟨rfl, fun _ => rfl, fun _ _ _ => rfl⟩

/-- Helper: starting at attempt a with calls already counted in c, the
fallback chain makes at most max_attempts + 1 - a further provider calls. -/
theorem fallback_mode_calls_le (m : Nat) (g : Nat → Bool × String) :
    ∀ d a c, m + 1 - a ≤ d →
      (fallback_mode m g c a).2 ≤ c + (m + 1 - a) := by
  intro d
  induction d with
  | zero =>
    intro a c hd
    have ha : a > m := by omega
    rw [fallback_mode, if_pos ha]
    omega
  | succ d ih =>
    intro a c hd
    by_cases ha : a > m
    · rw [fallback_mode, if_pos ha]
      omega
    · rw [fallback_mode, if_neg ha]
      by_cases hr : (g c).1 = false ∧ a < m
      · simp only [if_pos hr]
        have := ih (a + 1) (c + 1) (by omega)
        omega
      · simp only [if_neg hr]
        show c + 1 ≤ c + (m + 1 - a)
        omega

/-- Helper: if the first k provider calls after c fail and the next one
succeeds, and enough attempts remain, the chain stops at that success and
returns its result. -/
theorem fallback_mode_first_success (m : Nat) (g : Nat → Bool × String) :
    ∀ k a c, a ≤ m → a + k ≤ m →
      (∀ j, j < k → (g (c + j)).1 = false) → (g (c + k)).1 = true →
      fallback_mode m g c a = (g (c + k), c + k + 1) := by
  intro k
  induction k with
  | zero =>
    intro a c ha _ _ hsucc
    rw [fallback_mode, if_neg (by omega)]
    have : ¬((g c).1 = false ∧ a < m) := by
      intro hx
      rw [show c + 0 = c by omega] at hsucc
      rw [hsucc] at hx
      exact absurd hx.1 (by simp)
    rw [if_neg this]
    simp
  | succ k ih =>
    intro a c ha hk hfail hsucc
    rw [fallback_mode, if_neg (by omega)]
    have hgc : (g c).1 = false := by
      have := hfail 0 (by omega)
      simpa using this
    rw [if_pos ⟨hgc, by omega⟩]
    have hfail' : ∀ j, j < k → (g (c + 1 + j)).1 = false := by
      intro j hj
      have := hfail (j + 1) (by omega)
      rw [show c + (j + 1) = c + 1 + j by omega] at this
      exact this
    have hsucc' : (g (c + 1 + k)).1 = true := by
      rw [show c + 1 + k = c + (k + 1) by omega]
      exact hsucc
    have := ih (a + 1) (c + 1) (by omega) (by omega) hfail' hsucc'
    rw [this]
    rw [show c + 1 + k = c + (k + 1) by omega]

/-- Claim C5: for every prompt and configured maxAttempts, fallback_mode
issues at most maxAttempts calls to the secondary (Gemini) provider
regardless of how the calls fail; a success on attempt k ≤ maxAttempts
stops further attempts and returns that provider result; and whenever the
attempt counter exceeds maxAttempts the chain returns failure with the
maximum-self-heal-attempts-exceeded message without any further call, so
the recursion depth is bounded by maxAttempts.  Calls are counted by the
threaded counter, starting from the source's entry point attempt = 1. -/
theorem fallback_mode_retry_bound (m : Nat) (g : Nat → Bool × String) :
    (fallback_mode m g 0 1).2 ≤ m ∧
      (∀ k, 1 ≤ k → k ≤ m → (∀ j, j + 1 < k → (g j).1 = false) →
        (g (k - 1)).1 = true →
        fallback_mode m g 0 1 = (g (k - 1), k)) ∧
      (∀ c a, m < a →
        fallback_mode m g c a = ((false, "Maximum self-heal attempts exceeded"), c)) := by
  refine ⟨?_, ?_, ?_⟩
  · have := fallback_mode_calls_le m g (m + 1 - 1) 1 0 (by omega)
    omega
  · intro k hk1 hkm hfail hsucc
    have hfail' : ∀ j, j < k - 1 → (g (0 + j)).1 = false := by
      intro j hj
      have := hfail j (by omega)
      simpa using this
    have hsucc' : (g (0 + (k - 1))).1 = true := by simpa using hsucc
    have := fallback_mode_first_success m g (k - 1) 1 0 (by omega) (by omega)
      hfail' hsucc'
    rw [this]
    simp only [Nat.zero_add]
    rw [show k - 1 + 1 = k by omega]
  · intro c a ha
    rw [fallback_mode, if_pos (by omega)]

/-- A concrete Gemini-call oracle: the first call fails, the second
succeeds. -/
def fallbackOracle : Nat → Bool × String :=
  fun n => if n == 1 then (true, "ok") else (false, "transient failure")

/-- Witness for C5: with maxAttempts = 3 and the concrete oracle, at most 3
calls are made, the success on attempt 2 stops the chain with that result,
and invoking the chain with the attempt counter already past the ceiling
returns the exceeded message. -/
theorem fallback_mode_retry_bound_witness :
    (fallback_mode 3 fallbackOracle 0 1).2 ≤ 3 ∧
      fallback_mode 3 fallbackOracle 0 1 = (fallbackOracle 1, 2) ∧
      fallback_mode 3 fallbackOracle 5 4 =
        ((false, "Maximum self-heal attempts exceeded"), 5) := by
  refine ⟨(fallback_mode_retry_bound 3 fallbackOracle).1, ?_, ?_⟩
  · have h := (fallback_mode_retry_bound 3 fallbackOracle).2.1 2 (by decide) (by decide)
      (fun j hj => by
        have hj0 : j = 0 := by omega
        rw [hj0]
        decide)
      (by decide)
    exact h
  · exact (fallback_mode_retry_bound 3 fallbackOracle).2.2 5 4 (by decide)

set_option maxRecDepth 4096 in
/-- Counterexample to claim C4: the sections of a multi-success report
follow the result map's insertion order, not a fixed provider priority
list.  The same two successful results presented in the two possible
insertion orders produce different report strings; were the sections
ordered by any fixed provider priority list, the two outputs would have to
be equal. -/
theorem synthesize_results_order_counterexample :
    synthesize_results [("gemini", (true, "g-out")), ("claude", (true, "c-out"))] "t" ≠
      synthesize_results [("claude", (true, "c-out")), ("gemini", (true, "g-out"))] "t" := by
  decide

/-- Helper: folding section appends from an initial string equals the
initial string followed by the concatenation of the sections. -/
theorem foldl_sections_eq (l : List (String × Bool × String)) :
    ∀ init : String,
      l.foldl (fun acc r => acc ++ sectionFor r.1 r.2.2) init =
        init ++ (l.map (fun r => sectionFor r.1 r.2.2)).foldr (· ++ ·) "" := by
  induction l with
  | nil => intro init; simp [String.append_empty]
  | cons r rest ih =>
    intro init
    simp only [List.foldl_cons, List.map_cons, List.foldr_cons]
    rw [ih (init ++ sectionFor r.1 r.2.2), String.append_assoc]

/-- Amended claim C4: if no provider succeeded, synthesize_results returns
the explicit all-calls-failed message; if exactly one succeeded, it returns
that provider's output verbatim; if two or more succeeded, it returns the
synthesis header followed by one labeled section per successful provider in
the result map's insertion order (not a fixed priority order), followed by
the static reconciliation hint. -/
theorem synthesize_results_spec (results : List (String × Bool × String))
    (task : String) :
    (results.filter (fun r => r.2.1) = [] →
      synthesize_results results task = "모든 AI 호출이 실패했습니다.") ∧
      (∀ r, results.filter (fun r => r.2.1) = [r] →
        synthesize_results results task = r.2.2) ∧
      (2 ≤ (results.filter (fun r => r.2.1)).length →
        synthesize_results results task =
          synthesisHeader ++
            ((results.filter (fun r => r.2.1)).map
              (fun r => sectionFor r.1 r.2.2)).foldr (· ++ ·) "" ++
            reconcileTip) := by
  refine ⟨?_, ?_, ?_⟩
  · intro h
    simp [synthesize_results, h]
  · intro r h
    simp [synthesize_results, h]
  · intro h
    have hne : (results.filter (fun r => r.2.1)).isEmpty = false := by
      rw [List.isEmpty_eq_false]
      intro hx
      rw [hx] at h
      simp at h
    have hlen : ((results.filter (fun r => r.2.1)).length == 1) = false := by
      simp only [beq_eq_false_iff_ne, ne_eq]
      omega
    simp only [synthesize_results, hne, hlen, Bool.false_eq_true, if_false, if_pos h]
    rw [foldl_sections_eq, String.append_assoc]

/-- Witness for the amended C4 at concrete inputs: an all-failed map, a
single-success map, and a two-success map. -/
theorem synthesize_results_spec_witness :
    synthesize_results [("claude", (false, "x"))] "t" = "모든 AI 호출이 실패했습니다." ∧
      synthesize_results [("claude", (true, "only"))] "t" = "only" ∧
      synthesize_results [("claude", (true, "a")), ("gemini", (true, "b"))] "t" =
        synthesisHeader ++
          (([("claude", (true, "a")), ("gemini", (true, "b"))].filter
            (fun r => r.2.1)).map (fun r => sectionFor r.1 r.2.2)).foldr (· ++ ·) "" ++
          reconcileTip := by
  refine ⟨(synthesize_results_spec [("claude", (false, "x"))] "t").1 (by decide),
    (synthesize_results_spec [("claude", (true, "only"))] "t").2.1
      ("claude", (true, "only")) (by decide),
    (synthesize_results_spec [("claude", (true, "a")), ("gemini", (true, "b"))] "t").2.2
      (by decide)⟩

/-- A one-file file system holding src/app.py. -/
def fsOneFile : FS := fun p => if p = "src/app.py" then some "old-code" else none

/-- An I/O environment where the backup copy raises (the except branch of
create_backup) while everything else succeeds. -/
def envCopyFails : IOEnv :=
  { copy_ok := false, write_ok := true, unlink_ok := true, exc_msg := "io error" }

/-- An I/O environment where every operation succeeds. -/
def envAllOk : IOEnv :=
  { copy_ok := true, write_ok := true, unlink_ok := true, exc_msg := "io error" }

/-- The modify change used in the applicator counterexample and witnesses. -/
def modifyAppChange : CodeChange := mkChange "src/app.py" "new-code"

/-- Counterexample to claim C2: when the shutil.copy2 inside create_backup
raises, create_backup returns None, yet apply_change proceeds and
overwrites the target.  On a file system holding only src/app.py, with the
copy failing, the modify reports success, the target's bytes become the new
content, and no backup file was produced (the deterministic backup
destination holds nothing) — so a modify does not always produce a backup
before the target's bytes change. -/
theorem apply_change_no_backup_counterexample :
    (apply_change fsOneFile envCopyFails "20240101_120000" modifyAppChange).1 =
        (true, "수정 완료") ∧
      (apply_change fsOneFile envCopyFails "20240101_120000" modifyAppChange).2
          "src/app.py" = some "new-code" ∧
      (apply_change fsOneFile envCopyFails "20240101_120000" modifyAppChange).2
          ".vbg_backups/app_20240101_120000.py" = none ∧
      backupPathOf "20240101_120000" "src/app.py" =
        ".vbg_backups/app_20240101_120000.py" := by
  refine ⟨rfl, by decide, by decide, by decide⟩

/-- Helper: with the source present and the copy succeeding, create_backup
returns the deterministic backup path and writes the source bytes there. -/
theorem create_backup_ok (fs : FS) (env : IOEnv) (ts file_path : String)
    (hnn : (fs file_path).isNone = false) (hcopy : env.copy_ok = true) :
    create_backup fs env ts file_path =
      (some (backupPathOf ts file_path),
        fun x => if x = backupPathOf ts file_path then fs file_path else fs x) := by
  simp only [create_backup, hnn, Bool.false_eq_true, if_false, hcopy, if_true]

/-- Helper: an option that is some is not none. -/
theorem isNone_false_of_isSome {o : Option String} (h : o.isSome = true) :
    o.isNone = false := by
  cases o with
  | none => simp at h
  | some v => simp

/-- Amended claim C2: for every modify-kind CodeChange whose target exists,
provided the backup copy and the target write both succeed, apply_change
produces exactly one backup file — the deterministic backup path now holds
the target's previous bytes, the target holds the new content, and no other
path changed; when the backup copy fails, apply_change warns and still
overwrites the target with no backup produced. -/
theorem apply_change_modify_backup_spec (fs : FS) (env : IOEnv) (ts : String)
    (change : CodeChange) (hmod : change.change_type = "modify")
    (hex : (fs change.file_path).isSome = true)
    (hcopy : env.copy_ok = true) (hwrite : env.write_ok = true)
    (hne : backupPathOf ts change.file_path ≠ change.file_path) :
    (apply_change fs env ts change).1 = (true, "수정 완료") ∧
      (apply_change fs env ts change).2 (backupPathOf ts change.file_path) =
        fs change.file_path ∧
      (apply_change fs env ts change).2 change.file_path = some change.new_code ∧
      (∀ p, p ≠ backupPathOf ts change.file_path → p ≠ change.file_path →
        (apply_change fs env ts change).2 p = fs p) := by
  have hnd : (change.change_type == "delete") = false := by
    rw [hmod]; decide
  have hnc : (change.change_type == "create") = false := by
    rw [hmod]; decide
  have hnn := isNone_false_of_isSome hex
  simp only [apply_change, hnd, hnc, Bool.false_eq_true, if_false, hnn,
    create_backup_ok fs env ts change.file_path hnn hcopy, hwrite, if_true]
  refine ⟨trivial, ?_, ?_, ?_⟩
  · simp only [if_neg hne, if_pos rfl]
  · simp only [if_pos rfl]
  · intro p hp1 hp2
    simp only [if_neg hp2, if_neg hp1]

/-- Witness for the amended C2 at concrete inputs. -/
theorem apply_change_modify_backup_spec_witness :
    (apply_change fsOneFile envAllOk "20240101_120000" modifyAppChange).1 =
        (true, "수정 완료") ∧
      (apply_change fsOneFile envAllOk "20240101_120000" modifyAppChange).2
          (backupPathOf "20240101_120000" "src/app.py") = some "old-code" ∧
      (apply_change fsOneFile envAllOk "20240101_120000" modifyAppChange).2
          "src/app.py" = some "new-code" ∧
      (apply_change fsOneFile envAllOk "20240101_120000" modifyAppChange).2
          "unrelated.txt" = none := by
  have h := apply_change_modify_backup_spec fsOneFile envAllOk "20240101_120000"
    modifyAppChange (by decide) (by decide) rfl rfl (by decide)
  refine ⟨h.1, ?_, ?_, ?_⟩
  · rw [show modifyAppChange.file_path = "src/app.py" from rfl] at h
    rw [h.2.1]
    decide
  · rw [show modifyAppChange.file_path = "src/app.py" from rfl,
      show modifyAppChange.new_code = "new-code" from rfl] at h
    exact h.2.2.1
  · rw [show modifyAppChange.file_path = "src/app.py" from rfl] at h
    rw [h.2.2.2 "unrelated.txt" (by decide) (by decide)]
    decide

/-- Claim C10: the backup path is a deterministic function of the source
file's stem, suffix and the second-resolution timestamp — two paths with
equal stem and suffix map to the same backup path for the same timestamp —
and two create_backup calls for the same source file with the same
timestamp compute the identical backup path, with the second call
overwriting the first backup file: afterwards that single path holds the
source's bytes as of the second call and no other path changed, so at most
one backup per (file, second) pair survives. -/
theorem create_backup_same_second_spec (fs : FS) (env : IOEnv) (ts : String)
    (p q file_path : String)
    (hsame : stemAndSuffix (fileNameOf p) = stemAndSuffix (fileNameOf q))
    (hex : (fs file_path).isSome = true) (hcopy : env.copy_ok = true) :
    backupPathOf ts p = backupPathOf ts q ∧
      (create_backup fs env ts file_path).1 = some (backupPathOf ts file_path) ∧
      (create_backup (create_backup fs env ts file_path).2 env ts file_path).1 =
        (create_backup fs env ts file_path).1 ∧
      (create_backup (create_backup fs env ts file_path).2 env ts file_path).2
          (backupPathOf ts file_path) =
        (create_backup fs env ts file_path).2 file_path ∧
      (∀ x, x ≠ backupPathOf ts file_path →
        (create_backup (create_backup fs env ts file_path).2 env ts file_path).2 x =
          (create_backup fs env ts file_path).2 x) := by
  have hnn := isNone_false_of_isSome hex
  have h1 := create_backup_ok fs env ts file_path hnn hcopy
  have hfs1fp : (create_backup fs env ts file_path).2 file_path = fs file_path := by
    rw [h1]
    by_cases hx : file_path = backupPathOf ts file_path
    · simp only [if_pos hx]
    · simp only [if_neg hx]
  have hnn1 : ((create_backup fs env ts file_path).2 file_path).isNone = false := by
    rw [hfs1fp]
    exact hnn
  have h2 := create_backup_ok (create_backup fs env ts file_path).2 env ts
    file_path hnn1 hcopy
  refine ⟨?_, ?_, ?_, ?_, ?_⟩
  · simp only [backupPathOf, hsame]
  · rw [h1]
  · rw [h2, h1]
  · rw [h2]
    simp only [if_true, eq_self_iff_true]
  · intro x hx
    rw [h2]
    simp only [if_neg hx]

/-- Witness for C10 at concrete inputs: the same file in two directories
yields the same backup name, and a double backup of src/app.py within one
second leaves the single backup path holding the file's bytes. -/
theorem create_backup_same_second_spec_witness :
    backupPathOf "20240101_120000" "dir1/app.py" =
        backupPathOf "20240101_120000" "dir2/app.py" ∧
      (create_backup fsOneFile envAllOk "20240101_120000" "src/app.py").1 =
        some ".vbg_backups/app_20240101_120000.py" ∧
      (create_backup (create_backup fsOneFile envAllOk "20240101_120000"
          "src/app.py").2 envAllOk "20240101_120000" "src/app.py").2
        ".vbg_backups/app_20240101_120000.py" = some "old-code" := by
  have h := create_backup_same_second_spec fsOneFile envAllOk "20240101_120000"
    "dir1/app.py" "dir2/app.py" "src/app.py" (by decide) (by decide) rfl
  refine ⟨h.1, ?_, ?_⟩
  · rw [h.2.1]
    decide
  · rw [show backupPathOf "20240101_120000" "src/app.py" =
        ".vbg_backups/app_20240101_120000.py" from by decide] at h
    rw [h.2.2.2.1]
    decide

/-- Helper: every CodeChange accepted from a pattern-1 match has a path the
existence check approved and is of kind modify. -/
theorem change_of_match1_sound (fsExists : String → Bool)
    (m : String × String × String) (c : CodeChange)
    (h : change_of_match1 fsExists m = some c) :
    fsExists c.file_path = true ∧ c.change_type = "modify" := by
  simp only [change_of_match1] at h
  split at h
  next => exact absurd h (by simp)
  next =>
    split at h
    next => exact absurd h (by simp)
    next =>
      split at h
      next hfs =>
        injection h with h
        subst h
        exact ⟨hfs, rfl⟩
      next => exact absurd h (by simp)

/-- Helper: every CodeChange accepted from a pattern-2 section has a path
the existence check approved and is of kind modify. -/
theorem candidate2_sound (fsExists : String → Bool) (fp content : String)
    (c : CodeChange) (h : candidate2 fsExists fp content = some c) :
    fsExists c.file_path = true ∧ c.change_type = "modify" := by
  simp only [candidate2] at h
  split at h
  next code heq =>
    split at h
    next hfs =>
      injection h with h
      subst h
      exact ⟨hfs, rfl⟩
    next => exact absurd h (by simp)
  next => exact absurd h (by simp)

/-- Helper: one pattern-2 step only adds approved modify changes. -/
theorem process2_step_mem (fsExists : String → Bool) (changes : List CodeChange)
    (sec : String × String) (c : CodeChange)
    (hc : c ∈ process2_step fsExists changes sec) :
    c ∈ changes ∨ (fsExists c.file_path = true ∧ c.change_type = "modify") := by
  simp only [process2_step] at hc
  split at hc
  next change hcand =>
    split at hc
    next => exact Or.inl hc
    next =>
      rw [List.mem_append] at hc
      rcases hc with hc | hc
      · exact Or.inl hc
      · rw [List.mem_singleton] at hc
        subst hc
        exact Or.inr (candidate2_sound _ _ _ _ hcand)
  next => exact Or.inl hc

/-- Helper: the pattern-2 fold only adds approved modify changes. -/
theorem process2_foldl_mem (fsExists : String → Bool) :
    ∀ (sections : List (String × String)) (acc : List CodeChange) (c : CodeChange),
      c ∈ sections.foldl (process2_step fsExists) acc →
      c ∈ acc ∨ (fsExists c.file_path = true ∧ c.change_type = "modify") := by
  intro sections
  induction sections with
  | nil => intro acc c hc; exact Or.inl hc
  | cons s rest ih =>
    intro acc c hc
    simp only [List.foldl_cons] at hc
    rcases ih _ c hc with h | h
    · exact process2_step_mem fsExists acc s c h
    · exact Or.inr h

/-- The file system of the extractor scenario: only src/app.py exists. -/
def scenarioFs : String → Bool := fun p => p == "src/app.py"

/-- The scenario response: one fenced block labeled with the existing path
src/app.py and one fenced block labeled only with the bare language name
python. -/
def scenarioResponse : String :=
  "\x60\x60\x60src/app.py\ncontents\n\x60\x60\x60\n\n\x60\x60\x60python\nprint(1)\n\x60\x60\x60"

set_option maxRecDepth 8192 in
/-- Claim C7: every CodeChange returned by parse_changes_from_response
names a path the extraction-time existence check approved and has kind
modify (never create); a fenced block whose path hint strips to nothing or
to a bare language name is rejected as noise; and the scenario response
with one block labeled by an existing path and one labeled by a bare
language name yields exactly one CodeChange. -/
theorem parse_changes_modify_existing (fsExists : String → Bool) (response : String) :
    (∀ c ∈ parse_changes_from_response fsExists response,
        fsExists c.file_path = true ∧ c.change_type = "modify") ∧
      (∀ lang hint code, pyStrip hint = "" ∨ pyStrip hint ∈ noiseLangs →
        change_of_match1 fsExists (lang, hint, code) = none) ∧
      (parse_changes_from_response scenarioFs scenarioResponse).length = 1 := by
  refine ⟨?_, ?_, by decide⟩
  · intro c hc
    simp only [parse_changes_from_response] at hc
    rcases process2_foldl_mem fsExists _ _ c hc with h | h
    · rw [List.mem_filterMap] at h
      obtain ⟨m, _, hm⟩ := h
      exact change_of_match1_sound fsExists m c hm
    · exact h
  · intro lang hint code hrej
    rcases hrej with h | h
    · simp [change_of_match1, h]
    · have hcontains : noiseLangs.contains (pyStrip hint) = true :=
        List.elem_eq_true_of_mem h
      simp only [change_of_match1, hcontains, Bool.or_true, if_true]
      split
      next => rfl
      next => rfl

/-- Witness for C7 at concrete inputs: the single extracted scenario change
is checked against the universal part, a bare-language block is rejected,
and the scenario count is 1. -/
theorem parse_changes_modify_existing_witness :
    (scenarioFs (mkChange "src/app.py" "contents").file_path = true ∧
        (mkChange "src/app.py" "contents").change_type = "modify") ∧
      change_of_match1 scenarioFs ("", "python", "print(1)") = none ∧
      (parse_changes_from_response scenarioFs scenarioResponse).length = 1 := by
  refine ⟨(parse_changes_modify_existing scenarioFs scenarioResponse).1
      (mkChange "src/app.py" "contents") (by decide),
    (parse_changes_modify_existing scenarioFs scenarioResponse).2.1
      "" "python" "print(1)" (Or.inr (by decide)),
    (parse_changes_modify_existing scenarioFs scenarioResponse).2.2⟩

/-- The file system of the duplicate-path counterexample: only a.py
exists. -/
def dupePathFs : String → Bool := fun p => p == "a.py"

/-- A response with two fenced blocks naming the same existing path with
different contents. -/
def dupePathResponse : String :=
  "\x60\x60\x60a.py\nxxx\n\x60\x60\x60\n\x60\x60\x60a.py\nyyy\n\x60\x60\x60"

set_option maxRecDepth 8192 in
/-- Counterexample to claim C8: parse_changes_from_response can return more
than one CodeChange for the same distinct file path.  The pattern-1 loop
appends every accepted match without any deduplication, so a response with
two fenced blocks both labeled a.py (with different contents) yields two
CodeChanges for a.py. -/
theorem parse_changes_duplicate_path_counterexample :
    (parse_changes_from_response dupePathFs dupePathResponse).map
        (fun c => c.file_path) = ["a.py", "a.py"] ∧
      (parse_changes_from_response dupePathFs dupePathResponse).map
        (fun c => c.new_code) = ["xxx", "yyy"] := by
  constructor
  · decide
  · decide

/-- Amended claim C8: deduplication happens only for pattern-2 (bracketed
file-section) matches, and only drops a candidate that is field-equal (same
path, same stripped content, same metadata) to an already-collected change,
in which case the first occurrence wins; a pattern-2 candidate for an
already-seen path with different content is still appended, and pattern-1
matches are always appended, so several changes per path are possible. -/
theorem parse_changes_dedup_spec (fsExists : String → Bool)
    (changes : List CodeChange) (fp content : String) (change : CodeChange)
    (h : candidate2 fsExists fp content = some change) :
    (change ∈ changes → process2_step fsExists changes (fp, content) = changes) ∧
      (change ∉ changes →
        process2_step fsExists changes (fp, content) = changes ++ [change]) := by
  have hmem : change ∈ changes.filter (fun c => c.file_path == change.file_path) ↔
      change ∈ changes := by
    rw [List.mem_filter]
    simp
  constructor
  · intro hin
    simp only [process2_step, h]
    rw [if_pos (hmem.mpr hin)]
  · intro hout
    simp only [process2_step, h]
    rw [if_neg (fun hx => hout (hmem.mp hx))]

/-- Witness for the amended C8 at concrete inputs: a pattern-2 section for
w.py whose extracted change equals an already-collected one is dropped,
while from an empty collection it is appended. -/
theorem parse_changes_dedup_spec_witness :
    candidate2 (fun p => p == "w.py") "w.py" "\x60\x60\x60\nX\n\x60\x60\x60" =
        some (mkChange "w.py" "X") ∧
      process2_step (fun p => p == "w.py") [mkChange "w.py" "X"]
        ("w.py", "\x60\x60\x60\nX\n\x60\x60\x60") = [mkChange "w.py" "X"] ∧
      process2_step (fun p => p == "w.py") []
        ("w.py", "\x60\x60\x60\nX\n\x60\x60\x60") = [mkChange "w.py" "X"] := by
  have hcand : candidate2 (fun p => p == "w.py") "w.py"
      "\x60\x60\x60\nX\n\x60\x60\x60" = some (mkChange "w.py" "X") := by decide
  have h1 := parse_changes_dedup_spec (fun p => p == "w.py") [mkChange "w.py" "X"]
    "w.py" "\x60\x60\x60\nX\n\x60\x60\x60" (mkChange "w.py" "X") hcand
  have h2 := parse_changes_dedup_spec (fun p => p == "w.py") []
    "w.py" "\x60\x60\x60\nX\n\x60\x60\x60" (mkChange "w.py" "X") hcand
  refine ⟨hcand, h1.1 (by decide), ?_⟩
  rw [h2.2 (by decide)]
  rfl

end VBG
